import Mathlib

/-!
Shallow embedding of the prerender builder core: build scheduling
(`_scheduleBuilds`), route partitioning (`groupArray`), worker fan-out
(`_parallelRenderRoutes`, `_renderUniversal`) and top-level orchestration
(`execute`).  External effects (target scheduling, build results, the
filesystem, forked worker processes, the processor count) are supplied
through an explicit environment record, so every function is a pure Lean
function of the code plus that environment.
-/

/-- A filesystem path, modelled by its separator-split segments together with
an absolute/relative flag.  The empty-string path is `⟨false, []⟩`. -/
structure NodePath where
  absolute : Bool
  segs : List String
deriving DecidableEq, Repr

/-- Segment normalisation as performed by Node's `path.join`: empty and `"."`
segments are dropped, `".."` cancels the preceding segment (and is kept at the
front of a relative path, dropped at the root of an absolute one).  The first
list is the accumulator of already-normalised segments, in reverse. -/
def normSegs (absolute : Bool) : List String → List String → List String
  | acc, [] => acc.reverse
  | acc, s :: rest =>
    if s = "" ∨ s = "." then normSegs absolute acc rest
    else if s = ".." then
      match acc with
      | [] => if absolute then normSegs absolute [] rest
              else normSegs absolute [".."] rest
      | a :: acc' =>
        if a = ".." then normSegs absolute (s :: a :: acc') rest
        else normSegs absolute acc' rest
    else normSegs absolute (s :: acc) rest

/-- Node's `path.join(a, b)`: concatenate the segments and normalise; the
result is absolute exactly when the first path is. -/
def pathJoin (a b : NodePath) : NodePath :=
  ⟨a.absolute, normSegs a.absolute [] (a.segs ++ b.segs)⟩

/-- Drop the longest shared leading run of two segment lists, returning the
two remainders. -/
def splitCommon : List String → List String → List String × List String
  | a :: as, b :: bs => if a = b then splitCommon as bs else (a :: as, b :: bs)
  | as, bs => (as, bs)

/-- Node's `path.relative(base, target)`: strip the common leading segments,
then climb out of what remains of `base` with `".."` segments and descend into
what remains of `target`.  The result is always a relative path. -/
def pathRelative (base target : NodePath) : NodePath :=
  ⟨false, List.replicate (splitCommon base.segs target.segs).1.length ".."
            ++ (splitCommon base.segs target.segs).2⟩

/-- Printed form of a path, used in error messages. -/
def pathToString (p : NodePath) : String :=
  (if p.absolute then "/" else "") ++ String.intercalate "/" p.segs

/-- Result contract of one build operation (`BuildBuilderOutput` in the
source): success flag, optional error message, base output path plus the
per-locale output paths.  `baseOutputPath` is typed `string` in the source
but can be `undefined` at runtime (the code tests `!== undefined`), hence
`Option` here; likewise `outputPath`. -/
structure BuildBuilderOutput where
  success : Bool
  error : Option String := none
  baseOutputPath : Option NodePath := none
  outputPaths : List NodePath := []
  outputPath : Option NodePath := none
deriving DecidableEq, Repr

/-- Combined result of the build stage (`ScheduleBuildsOutput` in the
source): a `BuilderOutput` plus the two individual build results when they
were obtained. -/
structure ScheduleBuildsOutput where
  success : Bool
  error : Option String := none
  browserResult : Option BuildBuilderOutput := none
  serverResult : Option BuildBuilderOutput := none
deriving DecidableEq, Repr

/-- JavaScript `a || b` on optional strings: `undefined` and `""` are falsy
and select the right operand (source line 99, `browserResult.error ||
serverResult.error`). -/
def jsOrStr : Option String → Option String → Option String
  | some s, b => if s = "" then b else some s
  | none, b => b

/-- JavaScript `a || b` where `a` is an optional numeric option: `undefined`
and `0` are falsy and select the default (source line 207,
`options.numProcesses || os.cpus().length - 1`). -/
def jsOrNum (a : Option Nat) (b : Int) : Int :=
  match a with
  | some n => if n = 0 then b else (n : Int)
  | none => b

/-- Effective worker count computed by `execute` (source lines 206-209):
`Math.min(options.numProcesses || os.cpus().length - 1, routes.length)`. -/
def effectiveNumProcesses (numProcessesOpt : Option Nat) (cpusLength : Nat)
    (routeCount : Nat) : Int :=
  min (jsOrNum numProcessesOpt ((cpusLength : Int) - 1)) (routeCount : Int)

/-- Modelled from the spec: the source of `groupArray` (imported from
`./utils`, a file absent from this snapshot; only its caller at source line
168 is present) is modelled from the Route Partitioner contract: split an
ordered list into `numGroups` contiguous groups whose concatenation is the
original list and whose sizes differ by at most one — the first
`arr.length % numGroups` groups get `arr.length / numGroups + 1` elements,
the rest `arr.length / numGroups`.  `groupSizes` lists those group sizes. -/
def groupSizes (len numGroups : Nat) : List Nat :=
  (List.range numGroups).map
    (fun i => len / numGroups + if i < len % numGroups then 1 else 0)

/-- Cut successive chunks of the given sizes off the front of a list. -/
def splitList (arr : List α) : List Nat → List (List α)
  | [] => []
  | n :: ns => arr.take n :: splitList (arr.drop n) ns

/-- Modelled from the spec: `groupArray` itself (see `groupSizes`). -/
def groupArray (arr : List α) (numGroups : Nat) : List (List α) :=
  splitList arr (groupSizes arr.length numGroups)

/-- Environment of external effects consumed by the builder: the outcome of
the two `context.scheduleTarget` calls, the outcome of awaiting each build's
result promise (`.error` = the promise rejected with that message), the
filesystem, the per-worker fate (`workerError p i = some e` means the `i`-th
child forked for output path `p` emits an `error` event with message `e`
instead of exiting), and `os.cpus().length`. -/
structure Env where
  browserSchedule : Except String Unit
  serverSchedule : Except String Unit
  browserBuild : Except String BuildBuilderOutput
  serverBuild : Except String BuildBuilderOutput
  fsExists : NodePath → Bool
  readFile : NodePath → Except String String
  workerError : NodePath → Nat → Option String

structure EnvCpus extends Env where
  cpusLength : Nat

/-- Observable outcome of one `_scheduleBuilds` call: the value returned (or
the exception propagated, as `.error`), whether each `scheduleTarget` call was
made, and how many times each build handle's `stop()` was invoked. -/
structure ScheduleBuildsRun where
  result : Except String ScheduleBuildsOutput
  browserScheduled : Bool
  serverScheduled : Bool
  browserStops : Nat
  serverStops : Nat
deriving Repr

/-- Source lines 75-107.  The two `await context.scheduleTarget(...)` calls
happen before the `try`, so an exception there propagates and skips the
`finally`; inside the `try`, `Promise.all` rejects with the first rejection
(modelled deterministically as the browser's when both reject), the `catch`
turns it into `{success: false, error: e.message}`, and the `finally` stops
both handles exactly once on every path that reaches it. -/
def _scheduleBuilds (env : Env) : ScheduleBuildsRun :=
  match env.browserSchedule with
  | .error e => ⟨.error e, true, false, 0, 0⟩
  | .ok _ =>
    match env.serverSchedule with
    | .error e => ⟨.error e, true, true, 0, 0⟩
    | .ok _ =>
      match env.browserBuild with
      | .error e => ⟨.ok { success := false, error := some e }, true, true, 1, 1⟩
      | .ok browserResult =>
        match env.serverBuild with
        | .error e => ⟨.ok { success := false, error := some e }, true, true, 1, 1⟩
        | .ok serverResult =>
          ⟨.ok { success := browserResult.success && serverResult.success
                             && browserResult.baseOutputPath.isSome,
                 error := jsOrStr browserResult.error serverResult.error,
                 browserResult := some browserResult,
                 serverResult := some serverResult },
           true, true, 1, 1⟩

/-- Source lines 109-143: one promise per route group; the `i`-th child's
promise resolves when the child exits and rejects if it emits an `error`
event.  Per-route `message` events are only logged and are not modelled. -/
def _parallelRenderRoutes (env : Env) (groupedRoutes : List (List String))
    (outputPath : NodePath) : List (Except String Unit) :=
  (List.range groupedRoutes.length).map
    (fun i =>
      match env.workerError outputPath i with
      | some e => .error e
      | none => .ok ())

/-- `Promise.all`: rejects with the first rejection, otherwise resolves. -/
def promiseAll : List (Except String Unit) → Except String Unit
  | [] => .ok ()
  | .error e :: _ => .error e
  | .ok _ :: rest => promiseAll rest

/-- The server bundle path resolved for one browser output path (source
lines 161-163): `path.join(serverResult.baseOutputPath ?? '',
path.relative(browserResult.baseOutputPath, outputPath), 'main.js')`. -/
def serverBundlePathFor (serverResult browserResult : BuildBuilderOutput)
    (outputPath : NodePath) : NodePath :=
  pathJoin
    (pathJoin (serverResult.baseOutputPath.getD ⟨false, []⟩)
      (pathRelative (browserResult.baseOutputPath.getD ⟨false, []⟩) outputPath))
    ⟨false, ["main.js"]⟩

/-- The loop of `_renderUniversal` over `browserResult.outputPaths` (source
lines 157-180), returning the overall outcome and the number of worker
processes forked.  `path.relative` with an `undefined` first argument throws
a `TypeError` in Node, modelled by the `none` branch. -/
def renderLoop (env : Env) (routes : List String) (numProcesses : Nat)
    (browserResult serverResult : BuildBuilderOutput) :
    List NodePath → Except String Unit × Nat
  | [] => (.ok (), 0)
  | outputPath :: rest =>
    let browserIndexOutputPath := pathJoin outputPath ⟨false, ["index.html"]⟩
    match env.readFile browserIndexOutputPath with
    | .error e => (.error e, 0)
    | .ok _indexHtml =>
      match browserResult.baseOutputPath with
      | none => (.error "TypeError: path must be a string", 0)
      | some browserBase =>
        let baseOutputPath := serverResult.baseOutputPath.getD ⟨false, []⟩
        let localeDirectory := pathRelative browserBase outputPath
        let serverBundlePath :=
          pathJoin (pathJoin baseOutputPath localeDirectory) ⟨false, ["main.js"]⟩
        if env.fsExists serverBundlePath then
          let groupedRoutes := groupArray routes numProcesses
          match promiseAll (_parallelRenderRoutes env groupedRoutes outputPath) with
          | .error e => (.error e, groupedRoutes.length)
          | .ok _ =>
            let next := renderLoop env routes numProcesses browserResult serverResult rest
            (next.1, groupedRoutes.length + next.2)
        else
          (.error ("Could not find the main bundle: " ++ pathToString serverBundlePath), 0)

/-- Source lines 149-183: render every output path in order and, on success,
return the browser result unchanged. -/
def _renderUniversal (env : Env) (routes : List String) (numProcesses : Nat)
    (browserResult serverResult : BuildBuilderOutput) :
    Except String BuildBuilderOutput × Nat :=
  let run := renderLoop env routes numProcesses browserResult serverResult
               browserResult.outputPaths
  (run.1.map (fun _ => browserResult), run.2)

/-- Observable outcome of one `execute` call: the returned value (or the
exception thrown, as `.error`), the scheduling/stop trace of the build stage,
whether `_renderUniversal` was invoked, and how many workers were forked. -/
structure ExecuteRun where
  result : Except String BuildBuilderOutput
  browserScheduled : Bool
  serverScheduled : Bool
  browserStops : Nat
  serverStops : Nat
  renderInvoked : Bool
  workersSpawned : Nat
deriving Repr

/-- Source lines 190-212.  `routes` stands for the value of
`getRoutes(context.workspaceRoot, options.routesFile, options.routes)`
(`getRoutes` lives in the absent `./utils`); the early return on build
failure is `{ success, error }`, all other `BuilderOutput` fields absent. -/
def execute (env : EnvCpus) (routes : List String)
    (numProcessesOpt : Option Nat) : ExecuteRun :=
  if routes.length = 0 then
    ⟨.error "No routes found.", false, false, 0, 0, false, 0⟩
  else
    let sched := _scheduleBuilds env.toEnv
    match sched.result with
    | .error e =>
      ⟨.error e, sched.browserScheduled, sched.serverScheduled,
       sched.browserStops, sched.serverStops, false, 0⟩
    | .ok r =>
      match r.success, r.browserResult, r.serverResult with
      | true, some browserResult, some serverResult =>
        let numProcesses :=
          effectiveNumProcesses numProcessesOpt env.cpusLength routes.length
        let render := _renderUniversal env.toEnv routes numProcesses.toNat
                        browserResult serverResult
        ⟨render.1, sched.browserScheduled, sched.serverScheduled,
         sched.browserStops, sched.serverStops, true, render.2⟩
      | succ, _, _ =>
        ⟨.ok { success := succ, error := r.error },
         sched.browserScheduled, sched.serverScheduled,
         sched.browserStops, sched.serverStops, false, 0⟩

/-! ## Properties of the route partitioner -/

lemma flatten_splitList (ns : List Nat) : ∀ arr : List α,
    (splitList arr ns).flatten = arr.take ns.sum := by
  induction ns with
  | nil => intro arr; simp [splitList]
  | cons n ns ih =>
    intro arr
    simp only [splitList, List.flatten_cons, ih, List.sum_cons]
    rw [List.take_add]

lemma sum_range_add_ite (q r : Nat) : ∀ m : Nat,
    ((List.range m).map (fun i => q + if i < r then 1 else 0)).sum
      = m * q + min m r := by
  intro m
  induction m with
  | zero => simp
  | succ m ih =>
    rw [List.range_succ, List.map_append, List.sum_append, ih]
    simp only [List.map_cons, List.map_nil, List.sum_cons, List.sum_nil]
    rcases Nat.lt_or_ge m r with h | h
    · rw [if_pos h, Nat.succ_mul]
      have h1 : min m r = m := Nat.min_eq_left (Nat.le_of_lt h)
      have h2 : min (m + 1) r = m + 1 := Nat.min_eq_left h
      omega
    · rw [if_neg (Nat.not_lt.mpr h), Nat.succ_mul]
      have h1 : min m r = r := Nat.min_eq_right h
      have h2 : min (m + 1) r = r := Nat.min_eq_right (Nat.le_succ_of_le h)
      omega

lemma groupSizes_sum (len n : Nat) (hn : 0 < n) :
    (groupSizes len n).sum = len := by
  rw [groupSizes, sum_range_add_ite]
  have h1 : min n (len % n) = len % n :=
    Nat.min_eq_right (Nat.le_of_lt (Nat.mod_lt _ hn))
  have h2 : n * (len / n) + len % n = len := Nat.div_add_mod len n
  have h3 : n * (len / n) = len / n * n := Nat.mul_comm _ _
  omega

lemma mem_splitList_length : ∀ (ns : List Nat) (arr : List α) (g : List α),
    ns.sum ≤ arr.length → g ∈ splitList arr ns → g.length ∈ ns := by
  intro ns
  induction ns with
  | nil => intro arr g _ hg; simp [splitList] at hg
  | cons n ns ih =>
    intro arr g hsum hg
    have hsum' : n + ns.sum ≤ arr.length := by
      simpa using hsum
    simp only [splitList, List.mem_cons] at hg
    rcases hg with rfl | hg
    · have hle : n ≤ arr.length := le_trans (Nat.le_add_right _ _) hsum'
      rw [List.length_take, Nat.min_eq_left hle]
      exact List.mem_cons_self _ _
    · refine List.mem_cons_of_mem _ (ih (arr.drop n) g ?_ hg)
      rw [List.length_drop]
      omega

lemma mem_groupSizes (len n : Nat) (x : Nat) (hx : x ∈ groupSizes len n) :
    x = len / n ∨ (x = len / n + 1 ∧ len % n ≠ 0) := by
  simp only [groupSizes, List.mem_map, List.mem_range] at hx
  obtain ⟨i, _, rfl⟩ := hx
  rcases Nat.lt_or_ge i (len % n) with h | h
  · exact Or.inr ⟨by rw [if_pos h], by omega⟩
  · exact Or.inl (by rw [if_neg (Nat.not_lt.mpr h), Nat.add_zero])

lemma ceil_div_split (len n : Nat) (hn : 0 < n) :
    (len + n - 1) / n = len / n + if len % n = 0 then 0 else 1 := by
  obtain ⟨q, r, hr, rfl⟩ : ∃ q r, r < n ∧ len = n * q + r :=
    ⟨len / n, len % n, Nat.mod_lt _ hn, (Nat.div_add_mod len n).symm⟩
  have hdiv : (n * q + r) / n = q := by
    rw [Nat.mul_add_div hn, Nat.div_eq_of_lt hr, Nat.add_zero]
  have hmod : (n * q + r) % n = r := by
    rw [Nat.mul_add_mod, Nat.mod_eq_of_lt hr]
  rw [hdiv, hmod]
  rcases Nat.eq_zero_or_pos r with rfl | hrpos
  · have e : n * q + 0 + n - 1 = n * q + (n - 1) := by
      have := hn; omega
    rw [if_pos rfl, e, Nat.mul_add_div hn, Nat.div_eq_of_lt (by omega)]
  · have e : n * q + r + n - 1 = n * (q + 1) + (r - 1) := by
      rw [Nat.mul_succ]; omega
    rw [if_neg (by omega), e, Nat.mul_add_div hn, Nat.div_eq_of_lt (by omega)]

/-- C1: for every route list `R` and worker count `N` with `1 ≤ N ≤ |R|`,
`groupArray` yields groups whose in-order concatenation is exactly `R`, every
group's size is `⌊|R|/N⌋` or `⌈|R|/N⌉`, and no two group sizes differ by more
than one. -/
theorem groupArray_partition (R : List String) (N : Nat)
    (h1 : 1 ≤ N) (h2 : N ≤ R.length) :
    (groupArray R N).flatten = R
    ∧ (∀ g ∈ groupArray R N,
        g.length = R.length / N ∨ g.length = (R.length + N - 1) / N)
    ∧ (∀ g1 ∈ groupArray R N, ∀ g2 ∈ groupArray R N,
        g1.length ≤ g2.length + 1) := by
  have hn : 0 < N := h1
  have hsum : (groupSizes R.length N).sum = R.length := groupSizes_sum _ _ hn
  have hsizes : ∀ g ∈ groupArray R N,
      g.length = R.length / N ∨ (g.length = R.length / N + 1 ∧ R.length % N ≠ 0) := by
    intro g hg
    exact mem_groupSizes _ _ _
      (mem_splitList_length _ _ _ (le_of_eq hsum) hg)
  refine ⟨?_, ?_, ?_⟩
  · rw [groupArray, flatten_splitList, hsum, List.take_length]
  · intro g hg
    rcases hsizes g hg with h | ⟨h, hmod⟩
    · exact Or.inl h
    · refine Or.inr ?_
      rw [h, ceil_div_split _ _ hn, if_neg hmod]
  · intro g1 hg1 g2 hg2
    rcases hsizes g1 hg1 with h1' | ⟨h1', _⟩ <;>
      rcases hsizes g2 hg2 with h2' | ⟨h2', _⟩ <;> omega

/-- Sample route list with ten routes, used to instantiate `groupArray_partition`. -/
def routesTen : List String :=
  ["/a", "/b", "/c", "/d", "/e", "/f", "/g", "/h", "/i", "/j"]

/-- Witness for C1: the partition property instantiated at ten routes and
three workers (group sizes 4, 3, 3). -/
theorem groupArray_partition_witness :
    (groupArray routesTen 3).flatten = routesTen
    ∧ (∀ g ∈ groupArray routesTen 3,
        g.length = routesTen.length / 3
          ∨ g.length = (routesTen.length + 3 - 1) / 3)
    ∧ (∀ g1 ∈ groupArray routesTen 3, ∀ g2 ∈ groupArray routesTen 3,
        g1.length ≤ g2.length + 1) :=
  groupArray_partition routesTen 3 (by decide) (by decide)

/-! ## Sample data used to instantiate the theorems -/

/-- Browser build result of the multi-locale scenario: base `/dist/browser`
with locale outputs `/dist/browser/en` and `/dist/browser/fr`. -/
def browserOut : BuildBuilderOutput :=
  { success := true
    baseOutputPath := some ⟨true, ["dist", "browser"]⟩
    outputPaths := [⟨true, ["dist", "browser", "en"]⟩,
                    ⟨true, ["dist", "browser", "fr"]⟩] }

/-- Server build result of the multi-locale scenario: base `/dist/server`. -/
def serverOut : BuildBuilderOutput :=
  { success := true
    baseOutputPath := some ⟨true, ["dist", "server"]⟩ }

/-- Environment in which everything goes right. -/
def envOk : Env :=
  { browserSchedule := .ok ()
    serverSchedule := .ok ()
    browserBuild := .ok browserOut
    serverBuild := .ok serverOut
    fsExists := fun _ => true
    readFile := fun _ => .ok "<html></html>"
    workerError := fun _ _ => none }

/-- Environment in which `context.scheduleTarget(serverTarget, ...)` rejects
with message `"boom"`. -/
def envSchedFail : Env :=
  { envOk with serverSchedule := .error "boom" }

/-- Environment in which awaiting the browser build result rejects with
message `"crash"`. -/
def envAwaitFail : Env :=
  { envOk with browserBuild := .error "crash" }

/-! ## Build scheduler -/

/-- C2: a result returned by `_scheduleBuilds` has `success = true` exactly
when both awaited build results exist, both report success, and the browser
result's `baseOutputPath` is defined. -/
theorem scheduleBuilds_success_iff (env : Env) (r : ScheduleBuildsOutput)
    (h : (_scheduleBuilds env).result = .ok r) :
    r.success = true
      ↔ ∃ b s, env.browserBuild = .ok b ∧ env.serverBuild = .ok s
          ∧ b.success = true ∧ s.success = true
          ∧ b.baseOutputPath.isSome = true := by
  cases hbs : env.browserSchedule with
  | error e => simp [_scheduleBuilds, hbs] at h
  | ok u =>
    cases hss : env.serverSchedule with
    | error e => simp [_scheduleBuilds, hbs, hss] at h
    | ok v =>
      cases hbb : env.browserBuild with
      | error e =>
        simp only [_scheduleBuilds, hbs, hss, hbb] at h
        cases h
        simp
      | ok b =>
        cases hsb : env.serverBuild with
        | error e =>
          simp only [_scheduleBuilds, hbs, hss, hbb, hsb] at h
          cases h
          simp
        | ok s =>
          simp only [_scheduleBuilds, hbs, hss, hbb, hsb] at h
          cases h
          simp [Bool.and_eq_true, and_assoc]

/-- Witness for C2: in `envOk` the combined result is returned and its
success flag is `true`, matching the right-hand side. -/
theorem scheduleBuilds_success_iff_witness :
    (({ success := true, error := none, browserResult := some browserOut,
        serverResult := some serverOut } : ScheduleBuildsOutput).success = true
      ↔ ∃ b s, envOk.browserBuild = .ok b ∧ envOk.serverBuild = .ok s
          ∧ b.success = true ∧ s.success = true
          ∧ b.baseOutputPath.isSome = true) :=
  scheduleBuilds_success_iff envOk _ rfl

/-- C3 counterexample: when scheduling the server target throws `"boom"`,
`_scheduleBuilds` propagates the exception instead of returning a failure
result — the claimed catch-all does not cover the scheduling phase. -/
theorem scheduleBuilds_schedule_exception_propagates :
    (_scheduleBuilds envSchedFail).result = .error "boom"
    ∧ ∀ r : ScheduleBuildsOutput,
        (_scheduleBuilds envSchedFail).result ≠ .ok r := by
  refine ⟨rfl, fun r h => ?_⟩
  rw [show (_scheduleBuilds envSchedFail).result = .error "boom" from rfl] at h
  exact Except.noConfusion h

/-- C3 amended: an exception raised while awaiting the build results is
caught and returned as a failure result carrying the exception's message,
but an exception raised while scheduling either target propagates to the
caller. -/
theorem scheduleBuilds_exception_handling (env : Env) :
    (∀ e : String,
      env.browserSchedule = .ok () → env.serverSchedule = .ok () →
      (env.browserBuild = .error e
        ∨ (∃ b, env.browserBuild = .ok b ∧ env.serverBuild = .error e)) →
      (_scheduleBuilds env).result = .ok { success := false, error := some e })
    ∧ (∀ e : String,
      (env.browserSchedule = .error e
        ∨ (env.browserSchedule = .ok () ∧ env.serverSchedule = .error e)) →
      (_scheduleBuilds env).result = .error e) := by
  constructor
  · intro e hb hs hcase
    rcases hcase with hbb | ⟨b, hbb, hsb⟩
    · simp [_scheduleBuilds, hb, hs, hbb]
    · simp [_scheduleBuilds, hb, hs, hbb, hsb]
  · intro e hcase
    rcases hcase with hb | ⟨hb, hs⟩
    · simp [_scheduleBuilds, hb]
    · simp [_scheduleBuilds, hb, hs]

/-- Witness for C3's amended statement: a rejected browser build await is
caught as `{success := false, error := "crash"}`, while a throwing server
`scheduleTarget` call propagates `"boom"`. -/
theorem scheduleBuilds_exception_handling_witness :
    (_scheduleBuilds envAwaitFail).result
        = .ok { success := false, error := some "crash" }
    ∧ (_scheduleBuilds envSchedFail).result = .error "boom" :=
  ⟨(scheduleBuilds_exception_handling envAwaitFail).1 "crash" rfl rfl (Or.inl rfl),
   (scheduleBuilds_exception_handling envSchedFail).2 "boom" (Or.inr ⟨rfl, rfl⟩)⟩

/-- C4 counterexample: on the path where scheduling the server target throws,
`_scheduleBuilds` ends in an exception yet neither build handle's `stop()` is
ever invoked — the browser handle, already created, leaks. -/
theorem scheduleBuilds_stop_skipped_on_schedule_exception :
    (_scheduleBuilds envSchedFail).result = .error "boom"
    ∧ (_scheduleBuilds envSchedFail).browserStops = 0
    ∧ (_scheduleBuilds envSchedFail).serverStops = 0 :=
  ⟨rfl, rfl, rfl⟩

/-- C4 amended: once both targets have been scheduled, each handle's `stop()`
is invoked exactly once on every path (both builds resolving, either
reporting failure, or an await rejecting); but if either `scheduleTarget`
call throws, no `stop()` is invoked at all. -/
theorem scheduleBuilds_stop_discipline (env : Env) :
    (env.browserSchedule = .ok () → env.serverSchedule = .ok () →
      (_scheduleBuilds env).browserStops = 1
        ∧ (_scheduleBuilds env).serverStops = 1)
    ∧ ((env.browserSchedule ≠ .ok () ∨ env.serverSchedule ≠ .ok ()) →
      (_scheduleBuilds env).browserStops = 0
        ∧ (_scheduleBuilds env).serverStops = 0) := by
  constructor
  · intro hb hs
    cases hbb : env.browserBuild with
    | error e => simp [_scheduleBuilds, hb, hs, hbb]
    | ok b =>
      cases hsb : env.serverBuild with
      | error e => simp [_scheduleBuilds, hb, hs, hbb, hsb]
      | ok s => simp [_scheduleBuilds, hb, hs, hbb, hsb]
  · intro hcase
    cases hbs : env.browserSchedule with
    | error e => simp [_scheduleBuilds, hbs]
    | ok u =>
      cases hss : env.serverSchedule with
      | error e => simp [_scheduleBuilds, hbs, hss]
      | ok v =>
        exfalso
        rcases hcase with hne | hne
        · exact hne (by rw [hbs])
        · exact hne (by rw [hss])

/-- Witness for C4's amended statement: in `envOk` both stops happen exactly
once; in `envSchedFail` neither stop happens. -/
theorem scheduleBuilds_stop_discipline_witness :
    ((_scheduleBuilds envOk).browserStops = 1
        ∧ (_scheduleBuilds envOk).serverStops = 1)
    ∧ ((_scheduleBuilds envSchedFail).browserStops = 0
        ∧ (_scheduleBuilds envSchedFail).serverStops = 0) :=
  ⟨(scheduleBuilds_stop_discipline envOk).1 rfl rfl,
   (scheduleBuilds_stop_discipline envSchedFail).2
     (Or.inr (by intro h; simp [envSchedFail, envOk] at h))⟩

/-! ## Worker-count policy and orchestration -/

/-- C5 counterexample: on a machine with a single processing unit and no
configured override, the worker count computed by `execute` is
`min(1 - 1, 3) = 0` — the claimed floor of 1 does not exist in the code. -/
theorem effectiveNumProcesses_zero_on_single_cpu :
    effectiveNumProcesses none 1 3 = 0
    ∧ ¬(1 ≤ effectiveNumProcesses none 1 3) := by
  constructor
  · rfl
  · intro h
    rw [show effectiveNumProcesses none 1 3 = 0 from rfl] at h
    omega

/-- C5 amended: the effective worker count is the explicitly configured
count when a nonzero one is given, and otherwise (processing units − 1), in
both cases capped at the route count; no floor of 1 is applied (a configured
count of 0 is falsy in JavaScript and falls back to the default, and on a
single-unit machine with no override the count is 0). -/
theorem effectiveNumProcesses_policy (cfg : Option Nat)
    (cpus routeCount : Nat) :
    (∀ n : Nat, cfg = some n → n ≠ 0 →
      effectiveNumProcesses cfg cpus routeCount
        = min (n : Int) (routeCount : Int))
    ∧ ((cfg = none ∨ cfg = some 0) →
      effectiveNumProcesses cfg cpus routeCount
        = min ((cpus : Int) - 1) (routeCount : Int)) := by
  constructor
  · rintro n rfl hn
    simp [effectiveNumProcesses, jsOrNum, hn]
  · rintro (rfl | rfl) <;> simp [effectiveNumProcesses, jsOrNum]

/-- Witness for C5's amended statement: an explicit count of 7 with 8 units
and 3 routes is capped at 3, and the default with 8 units and 3 routes is
also `min(7, 3) = 3`. -/
theorem effectiveNumProcesses_policy_witness :
    effectiveNumProcesses (some 7) 8 3 = min (7 : Int) (3 : Int)
    ∧ effectiveNumProcesses none 8 3 = min ((8 : Int) - 1) (3 : Int) :=
  ⟨(effectiveNumProcesses_policy (some 7) 8 3).1 7 rfl (by omega),
   (effectiveNumProcesses_policy none 8 3).2 (Or.inl rfl)⟩

/-- C6: with an empty resolved route list, `execute` throws
`"No routes found."` and neither build target is ever scheduled (and no
worker is forked). -/
theorem execute_empty_routes (env : EnvCpus) (cfg : Option Nat) :
    (execute env [] cfg).result = .error "No routes found."
    ∧ (execute env [] cfg).browserScheduled = false
    ∧ (execute env [] cfg).serverScheduled = false
    ∧ (execute env [] cfg).workersSpawned = 0 := by
  refine ⟨?_, ?_, ?_, ?_⟩ <;> simp [execute]

/-- C8: whenever the build stage returns a result whose success flag is
`false`, `execute` returns `{success, error}` built from that result,
`_renderUniversal` is never invoked, and no worker process is forked. -/
theorem execute_build_failure_no_render (env : EnvCpus) (routes : List String)
    (cfg : Option Nat) (r : ScheduleBuildsOutput)
    (hroutes : routes ≠ [])
    (hr : (_scheduleBuilds env.toEnv).result = .ok r)
    (hfail : r.success = false) :
    (execute env routes cfg).result
        = .ok { success := false, error := r.error }
    ∧ (execute env routes cfg).renderInvoked = false
    ∧ (execute env routes cfg).workersSpawned = 0 := by
  have hlen : ¬(routes.length = 0) := by
    intro h
    exact hroutes (List.length_eq_zero.mp h)
  obtain ⟨succ, err, bres, sres⟩ := r
  simp only [ScheduleBuildsOutput.success] at hfail
  subst hfail
  cases bres <;> cases sres <;>
    refine ⟨?_, ?_, ?_⟩ <;> simp [execute, hlen, hr]

/-! ## Render dispatcher -/

lemma promiseAll_error_of_mem : ∀ l : List (Except String Unit),
    (∃ x ∈ l, ∃ e, x = .error e) → ∃ e, promiseAll l = .error e := by
  intro l
  induction l with
  | nil => rintro ⟨x, hx, _⟩; simp at hx
  | cons x rest ih =>
    rintro ⟨y, hy, e, rfl⟩
    cases x with
    | error e' => exact ⟨e', rfl⟩
    | ok u =>
      rcases List.mem_cons.mp hy with h | h
      · exact absurd h.symm (Except.noConfusion)
      · obtain ⟨e'', he''⟩ := ih ⟨.error e, h, e, rfl⟩
        exact ⟨e'', by cases u; simpa [promiseAll] using he''⟩

lemma parallelRenderRoutes_has_error (env : Env) (gs : List (List String))
    (p : NodePath) (i : Nat) (hi : i < gs.length) (e : String)
    (hw : env.workerError p i = some e) :
    Except.error e ∈ _parallelRenderRoutes env gs p := by
  simp only [_parallelRenderRoutes]
  refine List.mem_map.mpr ⟨i, List.mem_range.mpr hi, ?_⟩
  rw [hw]

lemma renderLoop_error_of_bad (env : Env) (routes : List String) (n : Nat)
    (bR sR : BuildBuilderOutput) : ∀ l : List NodePath,
    (∃ p ∈ l, env.fsExists (serverBundlePathFor sR bR p) = false
      ∨ ∃ i, i < (groupArray routes n).length ∧ env.workerError p i ≠ none) →
    ∃ e, (renderLoop env routes n bR sR l).1 = .error e := by
  intro l
  induction l with
  | nil => rintro ⟨p, hp, _⟩; simp at hp
  | cons p' rest ih =>
    rintro ⟨p, hp, hbad⟩
    cases hrf : env.readFile (pathJoin p' ⟨false, ["index.html"]⟩) with
    | error e => exact ⟨e, by simp [renderLoop, hrf]⟩
    | ok txt =>
      cases hbase : bR.baseOutputPath with
      | none =>
        exact ⟨"TypeError: path must be a string",
          by simp [renderLoop, hrf, hbase]⟩
      | some bb =>
        have hsbf : serverBundlePathFor sR bR p'
            = pathJoin (pathJoin (sR.baseOutputPath.getD ⟨false, []⟩)
                (pathRelative bb p')) ⟨false, ["main.js"]⟩ := by
          simp [serverBundlePathFor, hbase]
        cases hfs : env.fsExists (pathJoin (pathJoin
            (sR.baseOutputPath.getD ⟨false, []⟩)
            (pathRelative bb p')) ⟨false, ["main.js"]⟩) with
        | false =>
          exact ⟨"Could not find the main bundle: "
              ++ pathToString (pathJoin (pathJoin
                  (sR.baseOutputPath.getD ⟨false, []⟩)
                  (pathRelative bb p')) ⟨false, ["main.js"]⟩),
            by simp [renderLoop, hrf, hbase, hfs]⟩
        | true =>
          cases hpa : promiseAll
              (_parallelRenderRoutes env (groupArray routes n) p') with
          | error e => exact ⟨e, by simp [renderLoop, hrf, hbase, hfs, hpa]⟩
          | ok w =>
            rcases List.mem_cons.mp hp with rfl | hp'
            · rcases hbad with hmiss | ⟨i, hi, hw⟩
              · rw [hsbf] at hmiss
                rw [hmiss] at hfs
                exact absurd hfs (by simp)
              · obtain ⟨e', he'⟩ := Option.ne_none_iff_exists'.mp hw
                obtain ⟨e'', he''⟩ := promiseAll_error_of_mem _
                  ⟨.error e', parallelRenderRoutes_has_error env _ p i hi e' he',
                    e', rfl⟩
                rw [he''] at hpa
                exact absurd hpa (by simp)
            · obtain ⟨e, he⟩ := ih ⟨p, hp', hbad⟩
              exact ⟨e, by cases w; simp [renderLoop, hrf, hbase, hfs, hpa, he]⟩

/-- Browser build result that reports failure. -/
def browserBad : BuildBuilderOutput :=
  { success := false, error := some "browser build failed" }

/-- Environment (with processor count) in which the browser build fails. -/
def envCpusBuildFail : EnvCpus :=
  { browserSchedule := .ok ()
    serverSchedule := .ok ()
    browserBuild := .ok browserBad
    serverBuild := .ok serverOut
    fsExists := fun _ => true
    readFile := fun _ => .ok "<html></html>"
    workerError := fun _ _ => none
    cpusLength := 4 }

/-- Witness for C8: a failing browser build makes `execute` return the build
stage's failure result with no rendering and no forked worker. -/
theorem execute_build_failure_no_render_witness :
    (execute envCpusBuildFail ["/a"] none).result
        = .ok { success := false, error := some "browser build failed" }
    ∧ (execute envCpusBuildFail ["/a"] none).renderInvoked = false
    ∧ (execute envCpusBuildFail ["/a"] none).workersSpawned = 0 :=
  execute_build_failure_no_render envCpusBuildFail ["/a"] none
    { success := false, error := some "browser build failed",
      browserResult := some browserBad, serverResult := some serverOut }
    (by decide) rfl rfl

/-- Two sample routes. -/
def routesTwo : List String := ["/a", "/b"]

/-- C7: whenever some browser output path's resolved server bundle — the
server base output path joined with the output path's location relative to
the browser base output path joined with `main.js` — does not exist on disk,
`_renderUniversal` throws, aborting the whole operation; and in the
two-locale scenario the resolved bundles are `/dist/server/en/main.js` and
`/dist/server/fr/main.js`. -/
theorem renderUniversal_bundle_resolution :
    (∀ (env : Env) (routes : List String) (numProcesses : Nat)
        (browserResult serverResult : BuildBuilderOutput),
      (∃ p ∈ browserResult.outputPaths,
        env.fsExists (serverBundlePathFor serverResult browserResult p)
          = false) →
      ∃ e, (_renderUniversal env routes numProcesses browserResult
              serverResult).1 = .error e)
    ∧ serverBundlePathFor serverOut browserOut
        ⟨true, ["dist", "browser", "en"]⟩
        = ⟨true, ["dist", "server", "en", "main.js"]⟩
    ∧ serverBundlePathFor serverOut browserOut
        ⟨true, ["dist", "browser", "fr"]⟩
        = ⟨true, ["dist", "server", "fr", "main.js"]⟩ := by
  refine ⟨?_, rfl, rfl⟩
  rintro env routes numProcesses browserResult serverResult ⟨p, hp, hmiss⟩
  obtain ⟨e, he⟩ := renderLoop_error_of_bad env routes numProcesses
    browserResult serverResult browserResult.outputPaths ⟨p, hp, Or.inl hmiss⟩
  exact ⟨e, by simp [_renderUniversal, he, Except.map]⟩

/-- Environment in which only the `en` server bundle exists on disk. -/
def envMissingFr : Env :=
  { envOk with fsExists := fun p =>
      if p = ⟨true, ["dist", "server", "en", "main.js"]⟩ then true
      else false }

/-- Witness for C7: with the `fr` bundle absent, `_renderUniversal` aborts
with an error. -/
theorem renderUniversal_bundle_resolution_witness :
    ∃ e, (_renderUniversal envMissingFr routesTwo 2 browserOut serverOut).1
      = .error e :=
  renderUniversal_bundle_resolution.1 envMissingFr routesTwo 2
    browserOut serverOut
    ⟨⟨true, ["dist", "browser", "fr"]⟩, by decide, by decide⟩

/-- C9: if any forked worker process emits an `error` event, the promise for
that worker rejects and, through `Promise.all`, the whole `execute` operation
rejects rather than treating that worker's routes as per-route failures. -/
theorem execute_worker_error_rejects (env : EnvCpus) (routes : List String)
    (cfg : Option Nat) (r : ScheduleBuildsOutput)
    (b s : BuildBuilderOutput)
    (hroutes : routes ≠ [])
    (hr : (_scheduleBuilds env.toEnv).result = .ok r)
    (hsucc : r.success = true)
    (hb : r.browserResult = some b)
    (hs : r.serverResult = some s)
    (hw : ∃ p ∈ b.outputPaths, ∃ i,
      i < (groupArray routes (effectiveNumProcesses cfg env.cpusLength
            routes.length).toNat).length
        ∧ env.workerError p i ≠ none) :
    ∃ e, (execute env routes cfg).result = .error e := by
  have hlen : ¬(routes.length = 0) := fun h =>
    hroutes (List.length_eq_zero.mp h)
  obtain ⟨p, hp, i, hi, hwe⟩ := hw
  obtain ⟨e, he⟩ := renderLoop_error_of_bad env.toEnv routes
    (effectiveNumProcesses cfg env.cpusLength routes.length).toNat
    b s b.outputPaths ⟨p, hp, Or.inr ⟨i, hi, hwe⟩⟩
  refine ⟨e, ?_⟩
  simp [execute, hlen, hr, hsucc, hb, hs, _renderUniversal, he, Except.map]

/-- Environment (with processor count) in which every forked worker fails to
spawn. -/
def envWorkerFail : EnvCpus :=
  { browserSchedule := .ok ()
    serverSchedule := .ok ()
    browserBuild := .ok browserOut
    serverBuild := .ok serverOut
    fsExists := fun _ => true
    readFile := fun _ => .ok "<html></html>"
    workerError := fun _ _ => some "spawn failure"
    cpusLength := 4 }

/-- Witness for C9: with workers failing to spawn, `execute` rejects. -/
theorem execute_worker_error_rejects_witness :
    ∃ e, (execute envWorkerFail routesTwo none).result = .error e :=
  execute_worker_error_rejects envWorkerFail routesTwo none
    { success := true, error := none, browserResult := some browserOut,
      serverResult := some serverOut }
    browserOut serverOut (by decide) rfl rfl rfl rfl
    ⟨⟨true, ["dist", "browser", "en"]⟩, by decide, 0, by decide, by decide⟩

/-- Server build result with no base output path. -/
def serverNoBase : BuildBuilderOutput :=
  { serverOut with baseOutputPath := none }

/-- Environment in which no file exists on disk. -/
def envNoServerBase : Env :=
  { envOk with fsExists := fun _ => false }

/-- The same environment with the server build result's `baseOutputPath`
replaced. -/
def setServerBase (env : Env) (p : Option NodePath) : Env :=
  { env with serverBuild :=
      env.serverBuild.map (fun s => { s with baseOutputPath := p }) }

/-- C10: the build stage's success flag never examines the server build's
`baseOutputPath` (changing it changes nothing in the reported flag); when it
is undefined, `_renderUniversal` substitutes the empty string, so the bundle
is looked up at the relative path `<locale>/main.js` and a missing file
surfaces as the ordinary missing-bundle error, not a dedicated one. -/
theorem scheduleBuilds_ignores_server_base (env : Env) (p : Option NodePath) :
    ((_scheduleBuilds env).result.map ScheduleBuildsOutput.success)
        = ((_scheduleBuilds (setServerBase env p)).result.map
            ScheduleBuildsOutput.success)
    ∧ serverBundlePathFor serverNoBase browserOut
        ⟨true, ["dist", "browser", "en"]⟩ = ⟨false, ["en", "main.js"]⟩
    ∧ (_renderUniversal envNoServerBase routesTwo 2 browserOut serverNoBase).1
        = .error "Could not find the main bundle: en/main.js" := by
  refine ⟨?_, rfl, rfl⟩
  cases hbs : env.browserSchedule with
  | error e => simp [_scheduleBuilds, setServerBase, hbs]
  | ok u =>
    cases hss : env.serverSchedule with
    | error e => simp [_scheduleBuilds, setServerBase, hbs, hss]
    | ok v =>
      cases hbb : env.browserBuild with
      | error e => simp [_scheduleBuilds, setServerBase, hbs, hss, hbb, Except.map]
      | ok b =>
        cases hsb : env.serverBuild with
        | error e =>
          simp [_scheduleBuilds, setServerBase, hbs, hss, hbb, hsb, Except.map]
        | ok s =>
          simp [_scheduleBuilds, setServerBase, hbs, hss, hbb, hsb, Except.map]
